import Mathlib

/-!
RSVP-Speed-Reading — shallow embedding and verification.

A shallow embedding of the frontend of the RSVP-Speed-Reading repository
(`src/frontend/src/App.tsx`, `src/frontend/src/components/Generator.tsx`,
and the unnamed earlier `Generator` variant `src/unnamed/part_000`),
together with theorems settling the frozen claims about it.

Machine numbers in the source are JavaScript numbers; all quantities that
appear here (string lengths, indices, millisecond durations, byte sizes,
WPM values) are small integers on which JS arithmetic is exact, so they
are embedded as `Nat`/`Int`/`Rat` directly.
-/

namespace RSVP

/-! ## Landing page demo (`App.tsx`, `RSVPDemo`)

```
const DEMO_WORDS = ["Speed", "reading", "just", "got", "faster.",
  "Transform", "text", "into", "dynamic", "video."]
setInterval(() => setCurrentIndex((prev) => (prev + 1) % DEMO_WORDS.length), 300)
const word = DEMO_WORDS[currentIndex]
const orpIndex = Math.floor(word.length / 3)
... className={i === orpIndex ? "text-red-500" : "text-white"}
```
-/

/-- The `DEMO_WORDS` array of `App.tsx`. -/
def DEMO_WORDS : List String :=
  ["Speed", "reading", "just", "got", "faster.",
   "Transform", "text", "into", "dynamic", "video."]

/-- The `setInterval` delay of the demo in milliseconds (`App.tsx` line 59). -/
def demoIntervalMs : ℕ := 300

/-- The WPM rate the demo button text announces (`Playing at 200 WPM`). -/
def demoWpm : ℕ := 200

/-- One tick of the demo: `(prev + 1) % DEMO_WORDS.length`. -/
def demoTick (prev : ℕ) : ℕ := (prev + 1) % DEMO_WORDS.length

/-- The index after `n` ticks, starting from the initial state `0`
    (`useState(0)`). -/
def demoIndexAfter : ℕ → ℕ
  | 0 => 0
  | n + 1 => demoTick (demoIndexAfter n)

/-- Embedding of `Math.floor(word.length / 3)`: on naturals, JS
    floor-of-division is `Nat` division.  (All demo words are ASCII, so the
    JS UTF-16 `length` agrees with the codepoint count.) -/
def orpIndex (word : String) : ℕ := word.length / 3

/-- The two CSS color classes used for demo characters. -/
inductive DemoColor
  | highlight   -- `text-red-500`
  | plain       -- `text-white`
  deriving DecidableEq, Repr

/-- Color class assigned to character position `i` of the displayed word:
    `i === orpIndex ? "text-red-500" : "text-white"`. -/
def demoCharColor (word : String) (i : ℕ) : DemoColor :=
  if i = orpIndex word then .highlight else .plain

/-! ## JS rounding (`Math.round`) -/

/-- Embedding of JS `Math.round`: `Math.round(x) = ⌊x + 1/2⌋` (round half
    toward positive infinity).  The arguments that occur here
    (`60000 / wpm` with `wpm ≤ 5000`) are far enough from half-integers,
    apart from the exactly representable halves, that double rounding of
    the division never changes the result, so the rational semantics is
    exact. -/
def jsRound (q : ℚ) : ℤ := ⌊q + 1 / 2⌋

/-- The per-word duration printed by the extreme-speed
    warning: `Math.round(60000/wpm)` (Generator.tsx line 371). -/
def warnMsPerWord (wpm : ℕ) : ℤ := jsRound (60000 / (wpm : ℚ))

/-! ## Whitespace, trimming and word counting

`Generator.tsx` line 199:
```
const wordCount = text.trim() ? text.trim().split(/\s+/).length : 0
```
Strings are handled as character lists. -/

/-- Whitespace predicate shared by JS `String.prototype.trim` and the
    regex class `\s` (the texts at issue use ASCII whitespace, on which
    both classes agree with `Char.isWhitespace`). -/
def isWs (c : Char) : Bool := c.isWhitespace

/-- Embedding of JS `String.prototype.trim`: remove leading and trailing
    whitespace. -/
def trimList (l : List Char) : List Char :=
  ((l.dropWhile isWs).reverse.dropWhile isWs).reverse

/-- The maximal non-whitespace runs of a character list, in order: skip
    every whitespace block, and cut each token at the next whitespace.
    On a trimmed non-empty string this is exactly what JS
    `split(/\s+/)` returns (no leading or trailing whitespace means no
    empty fields). -/
def wsRuns : List Char → List (List Char)
  | [] => []
  | c :: cs =>
    if isWs c then wsRuns cs
    else (c :: cs.takeWhile (fun x => !isWs x)) :: wsRuns (cs.dropWhile (fun x => !isWs x))
termination_by l => l.length
decreasing_by
  · simp only [List.length_cons]; omega
  · simp only [List.length_cons]
    exact Nat.lt_succ_of_le ((cs.dropWhile_sublist _).length_le)

/-- Embedding of the `wordCount` expression of Generator.tsx line 199
    (and of part_000 line 148): `text.trim()` falsy (empty) gives 0,
    otherwise the length of `text.trim().split(/\s+/)`. -/
def wordCount (text : List Char) : ℕ :=
  let t := trimList text
  if t.isEmpty then 0 else (wsRuns t).length

/-- Modelled from the spec: counter of maximal non-whitespace runs,
    written independently as a left-to-right scan that increments on each
    whitespace-to-non-whitespace transition.  `inRun` records whether the
    previous character was part of a token. -/
def runCountAux : Bool → List Char → ℕ
  | _, [] => 0
  | inRun, c :: cs =>
    if isWs c then runCountAux false cs
    else (if inRun then 0 else 1) + runCountAux true cs

/-- The number of maximal non-whitespace runs of a character list. -/
def runCount (l : List Char) : ℕ := runCountAux false l

/-! ## File selection (`handleFileChange`, Generator.tsx lines 52-77 and
part_000 lines 30-55; both variants are character-identical) -/

/-- The observable attributes of a selected `File` object. -/
structure SelectedFile where
  name : String
  mime : String   -- the `type` property of the File
  size : ℕ        -- bytes
  deriving DecidableEq, Repr

/-- The `validTypes` MIME list of `handleFileChange`. -/
def validTypes : List String :=
  ["text/plain", "text/markdown", "application/pdf",
   "application/vnd.openxmlformats-officedocument.wordprocessingml.document"]

/-- The `validExtensions` list of `handleFileChange`. -/
def validExtensions : List String := [".txt", ".md", ".pdf", ".docx"]

/-- Embedding of
    `validExtensions.some((ext) => selectedFile.name.toLowerCase().endsWith(ext))`:
    lower-casing maps each character through `Char.toLower` (the names at
    issue are ASCII, where JS `toLowerCase` agrees), and `endsWith` is the
    suffix test on the character lists. -/
def hasValidExtension (f : SelectedFile) : Bool :=
  validExtensions.any fun ext => ext.toList.isSuffixOf (f.name.toList.map Char.toLower)

/-- The upload size limit: `5 * 1024 * 1024` bytes. -/
def maxFileSize : ℕ := 5 * 1024 * 1024

/-- Error message for a file of unsupported type. -/
def typeErrorMsg : String := "Invalid file type. Supported: TXT, PDF, DOCX, Markdown"

/-- Error message for an oversized file. -/
def sizeErrorMsg : String := "File too large. Maximum size is 5MB."

/-- The part of the component state that `handleFileChange` reads or
    writes: the `file` and `error` `useState` cells. -/
structure FileState where
  file : Option SelectedFile
  error : Option String
  deriving DecidableEq, Repr

/-- A file of a supported type: accepted MIME type or accepted extension
    (the negation of the first rejection condition of `handleFileChange`). -/
def supportedFile (f : SelectedFile) : Bool :=
  validTypes.contains f.mime || hasValidExtension f

/-- Embedding of `handleFileChange`: `sel` is `e.target.files?.[0]`.
    With no selected file nothing happens; an unsupported type or an
    oversized file sets the error and returns early (leaving `file`
    untouched); otherwise the file is stored and the error cleared. -/
def handleFileChange (st : FileState) (sel : Option SelectedFile) : FileState :=
  match sel with
  | none => st
  | some f =>
    if !validTypes.contains f.mime && !hasValidExtension f then
      { st with error := some typeErrorMsg }
    else if f.size > maxFileSize then
      { st with error := some sizeErrorMsg }
    else
      { file := some f, error := none }

/-! ## Generator settings state machine

The settings `useState` cells of the `Generator` component and the DOM
events that update them.  An HTML `input type=range` clamps its value
into `[min, max]` (we over-approximate by ignoring the `step`
quantization, which only removes behaviours); a `select` element only
ever reports the value of one of its `option` children. -/

/-- An HTML range input with its `min` and `max` attributes. -/
structure RangeInput where
  lo : ℤ
  hi : ℤ
  deriving DecidableEq, Repr

/-- The value the DOM reports for an attempted assignment `raw`: per the
    HTML standard the value of a range input is clamped into `[lo, hi]`. -/
def RangeInput.emit (r : RangeInput) (raw : ℤ) : ℤ := max r.lo (min r.hi raw)

/-- The WPM slider of Generator.tsx (lines 336-345): `min=100 max=5000`. -/
def wpmSlider : RangeInput := ⟨100, 5000⟩

/-- The WPM slider of the earlier variant part_000 (lines 205-213):
    `min=100 max=800`. -/
def wpmSliderLegacy : RangeInput := ⟨100, 800⟩

/-- The words-per-frame slider (`min=1 max=3`). -/
def groupingSlider : RangeInput := ⟨1, 3⟩

/-- The `value` attributes of the three options of the font `select`
    (Generator.tsx lines 400-409): `arial`, `serif`, `mono`. -/
def fontOptionValues : List String := ["arial", "serif", "mono"]

/-- The settings-relevant `useState` cells of `Generator`. -/
structure GenState where
  text : List Char
  file : Option SelectedFile
  wpm : ℤ
  font : String
  textColor : String
  bgColor : String
  highlightColor : String
  pauseOnPunctuation : Bool
  wordGrouping : ℤ
  error : Option String
  deriving DecidableEq, Repr

/-- The initial `useState` values of `Generator` (lines 27-38). -/
def initialGenState : GenState :=
  { text := [], file := none, wpm := 300, font := "arial",
    textColor := "#000000", bgColor := "#FFFFFF", highlightColor := "#FF0000",
    pauseOnPunctuation := true, wordGrouping := 1, error := none }

/-- The DOM events that update the settings state.  `fontSelect` carries
    the index of the chosen `option`, reflecting that a select element
    reports only the values of its options. -/
inductive UiEvent
  | setText (s : List Char)
  | wpmSlide (raw : ℤ)
  | groupSlide (raw : ℤ)
  | fontSelect (i : Fin 3)
  | setTextColor (v : String)
  | setBgColor (v : String)
  | setHighlightColor (v : String)
  | setPause (b : Bool)
  | fileChange (sel : Option SelectedFile)
  | clearFile
  deriving Repr

/-- One event handler dispatch of the `Generator` component. -/
def genStep (st : GenState) : UiEvent → GenState
  | .setText s => { st with text := s }
  | .wpmSlide raw => { st with wpm := wpmSlider.emit raw }
  | .groupSlide raw => { st with wordGrouping := groupingSlider.emit raw }
  | .fontSelect i => { st with font := fontOptionValues.get ⟨i, by simp [fontOptionValues]⟩ }
  | .setTextColor v => { st with textColor := v }
  | .setBgColor v => { st with bgColor := v }
  | .setHighlightColor v => { st with highlightColor := v }
  | .setPause b => { st with pauseOnPunctuation := b }
  | .fileChange sel =>
      let fs := handleFileChange ⟨st.file, st.error⟩ sel
      { st with file := fs.file, error := fs.error }
  | .clearFile => { st with file := none }

/-- The state reached from the initial state after a list of events. -/
def runGen (events : List UiEvent) : GenState :=
  events.foldl genStep initialGenState

/-! ## Job submission (`handleGenerate`, Generator.tsx lines 115-190) -/

/-- The `FormData` body built by `handleGenerate` (lines 126-138): the
    `file` entry when a file is selected, the raw `text` entry otherwise,
    then the seven settings fields. -/
structure RequestBody where
  fileField : Option SelectedFile
  textField : Option (List Char)
  wpm : ℤ
  font : String
  textColor : String
  bgColor : String
  highlightColor : String
  pauseOnPunctuation : Bool
  wordGrouping : ℤ
  deriving DecidableEq, Repr

/-- The body `handleGenerate` posts to `/api/generate` from state `st`. -/
def buildBody (st : GenState) : RequestBody :=
  { fileField := st.file,
    textField := if st.file.isSome then none else some st.text,
    wpm := st.wpm, font := st.font, textColor := st.textColor,
    bgColor := st.bgColor, highlightColor := st.highlightColor,
    pauseOnPunctuation := st.pauseOnPunctuation,
    wordGrouping := st.wordGrouping }

/-- The validation error message of `handleGenerate`. -/
def emptyInputMsg : String := "Please enter text or upload a file"

/-- Synchronous outcome of clicking Generate: either the empty-input
    validation rejection (no request is sent) or a posted request body. -/
inductive SubmitOutcome
  | rejectedEmpty
  | submitted (body : RequestBody)
  deriving DecidableEq, Repr

/-- Embedding of the synchronous prefix of `handleGenerate` (lines
    115-144): `if (!text.trim() && !file)` sets the error and returns
    without sending anything; otherwise the error is cleared
    (`setError(null)`) and the form data is posted. -/
def handleGenerate (st : GenState) : SubmitOutcome × GenState :=
  if (trimList st.text).isEmpty && st.file.isNone then
    (.rejectedEmpty, { st with error := some emptyInputMsg })
  else
    (.submitted (buildBody st), { st with error := none })

/-! ## Status polling (`pollJobStatus`, Generator.tsx lines 79-113, and
the interval set up at lines 174-177)

The TypeScript annotation of the frontend for `status` lists only `pending`,
`processing`, `completed` and `failed`, but the value is read from
unvalidated JSON (`await response.json()`), and the job model of the
backend also has a `cancelled` state; `JobState` therefore carries all
five states so that the behaviour of the handler on each can be stated. -/

/-- Job lifecycle states. -/
inductive JobState
  | pending
  | processing
  | completed
  | failed
  | cancelled
  deriving DecidableEq, Repr

/-- Modelled from the spec: the terminal job states (`completed`,
    `failed`, `cancelled`), used only to state the claim about when
    polling stops. -/
def specTerminal : JobState → Bool
  | .completed => true
  | .failed => true
  | .cancelled => true
  | _ => false

/-- A status response body as consumed by `pollJobStatus`. -/
structure StatusResponse where
  jobId : String
  status : JobState
  percent : ℤ
  message : Option String
  wordCount : Option ℕ
  downloadUrl : Option String
  deriving DecidableEq, Repr

/-- The result record stored by `setResult` on completion. -/
structure GenerationResult where
  jobId : String
  wordCount : ℕ
  downloadUrl : String
  deriving DecidableEq, Repr

/-- The component state touched by the polling loop: whether
    `pollingRef.current` still holds a live interval, plus the
    `isGenerating`, `jobStatus`, `result` and `error` cells. -/
structure PollState where
  intervalActive : Bool
  isGenerating : Bool
  jobStatus : Option StatusResponse
  result : Option GenerationResult
  error : Option String
  deriving DecidableEq, Repr

/-- The polling interval delay: `setInterval(..., 1000)` (line 177). -/
def pollIntervalMs : ℕ := 1000

/-- The polling state right after a successful submission (lines
    167-180): status displayed as pending, interval installed. -/
def startPollState (jobId : String) : PollState :=
  { intervalActive := true, isGenerating := true,
    jobStatus := some ⟨jobId, .pending, 0,
      some "Job submitted, waiting to start...", none, none⟩,
    result := none, error := none }

/-- Embedding of one successful status fetch of `pollJobStatus` (lines
    86-109): the response is always stored via `setJobStatus`; on
    `completed` the interval is cleared and the result recorded; on
    `failed` the interval is cleared and the error set; every other
    status (including `cancelled`) leaves the rest of the state — and in
    particular the live interval — unchanged. -/
def pollStep (st : PollState) (resp : StatusResponse) : PollState :=
  let st1 := { st with jobStatus := some resp }
  if resp.status = .completed then
    { st1 with
        intervalActive := false, isGenerating := false,
        result := some ⟨resp.jobId, resp.wordCount.getD 0,
          resp.downloadUrl.getD ("/api/download/" ++ resp.jobId)⟩ }
  else if resp.status = .failed then
    { st1 with
        intervalActive := false, isGenerating := false,
        error := some (resp.message.getD "Video generation failed") }
  else
    st1

/-! ## Theorems -/

/-- C1: for every non-empty displayed word `w` the ORP index computed by
    the landing-page demo equals `floor(len(w)/3)`, lies in
    `[0, len(w)-1]`, and exactly the character at that index gets the
    highlight color (`text-red-500`) while every other position gets the
    text color; for the five-character word `SPEED` the index is 1. -/
theorem claim_C1_orp_highlight (w : String) (h : w.length ≠ 0) :
    orpIndex w = w.length / 3 ∧
    orpIndex w ≤ w.length - 1 ∧
    (∀ i, demoCharColor w i = DemoColor.highlight ↔ i = orpIndex w) ∧
    (∀ i, i ≠ orpIndex w → demoCharColor w i = DemoColor.plain) ∧
    orpIndex "SPEED" = 1 := by
  refine ⟨rfl, ?_, ?_, ?_, by decide⟩
  · have hlt : w.length / 3 < w.length :=
      Nat.div_lt_self (Nat.pos_of_ne_zero h) (by omega)
    unfold orpIndex
    omega
  · intro i
    unfold demoCharColor
    split_ifs with hi <;> simp [hi]
  · intro i hi
    unfold demoCharColor
    simp [hi]

/-- Witness for C1 at the concrete word `SPEED`. -/
theorem claim_C1_orp_highlight_witness :
    ("SPEED" : String).length ≠ 0 ∧
    orpIndex "SPEED" ≤ ("SPEED" : String).length - 1 ∧
    demoCharColor "SPEED" 1 = DemoColor.highlight ∧
    demoCharColor "SPEED" 0 = DemoColor.plain ∧
    orpIndex "SPEED" = 1 := by
  have h := claim_C1_orp_highlight "SPEED" (by decide)
  exact ⟨by decide, h.2.1, (h.2.2.1 1).mpr (by decide),
    h.2.2.2.1 0 (by decide), h.2.2.2.2⟩

/-- C2: the landing demo, announced at 200 WPM, advances every
    `60000 / 200 = 300` ms, and the extreme-speed warning of the generator
    reports a per-word duration of `Math.round(60000/wpm)` ms, which is
    within rounding (1/2 ms) of the exact period `60000/wpm` of a
    one-word group. -/
theorem claim_C2_unit_duration (wpm : ℕ) (h : 0 < wpm) :
    demoIntervalMs = 60000 / demoWpm ∧
    |(warnMsPerWord wpm : ℚ) - 60000 / (wpm : ℚ)| ≤ 1 / 2 ∧
    warnMsPerWord demoWpm = demoIntervalMs := by
  refine ⟨by decide, ?_, by norm_num [warnMsPerWord, jsRound, demoWpm, demoIntervalMs]⟩
  unfold warnMsPerWord jsRound
  set q : ℚ := 60000 / (wpm : ℚ) with hq
  have h1 : (⌊q + 1 / 2⌋ : ℚ) ≤ q + 1 / 2 := Int.floor_le _
  have h2 : q + 1 / 2 < (⌊q + 1 / 2⌋ : ℚ) + 1 := Int.lt_floor_add_one _
  rw [abs_le]
  constructor <;> linarith

/-- Witness for C2 at `wpm = 200`. -/
theorem claim_C2_unit_duration_witness :
    0 < 200 ∧
    (demoIntervalMs = 60000 / demoWpm ∧
     |(warnMsPerWord 200 : ℚ) - 60000 / (200 : ℚ)| ≤ 1 / 2 ∧
     warnMsPerWord demoWpm = demoIntervalMs) :=
  ⟨by decide, by simpa using claim_C2_unit_duration 200 (by decide)⟩

/-- C9: the current index of the demo starts at 0 and each tick applies
    `(prev + 1) % DEMO_WORDS.length`, so after any number of ticks it is
    a valid index into `DEMO_WORDS` and the looked-up word is non-empty
    (the ORP computation never receives `undefined`). -/
theorem claim_C9_demo_index_safe (n : ℕ) :
    demoIndexAfter n < DEMO_WORDS.length ∧
    (DEMO_WORDS.getD (demoIndexAfter n) "").length ≠ 0 := by
  have hlt : demoIndexAfter n < DEMO_WORDS.length := by
    induction n with
    | zero => decide
    | succ k _ =>
      show (demoIndexAfter k + 1) % DEMO_WORDS.length < DEMO_WORDS.length
      exact Nat.mod_lt _ (by decide)
  refine ⟨hlt, ?_⟩
  have hall : ∀ i, i < DEMO_WORDS.length → (DEMO_WORDS.getD i "").length ≠ 0 := by decide
  exact hall _ hlt

/-- Helper: the font cell of any reachable `Generator` state holds one of
    the option values of the select element. -/
theorem font_inv_foldl (events : List UiEvent) (st : GenState)
    (h : st.font ∈ fontOptionValues) :
    (events.foldl genStep st).font ∈ fontOptionValues := by
  induction events generalizing st with
  | nil => exact h
  | cons ev rest ih =>
    refine ih (genStep st ev) ?_
    cases ev with
    | fontSelect i =>
      simp only [genStep]
      exact List.get_mem _ _ _
    | _ => exact h

/-- C4 counterexample: a generation submitted from the default settings
    (after only typing text) posts `font = arial`, which is not in the
    set `sans`/`serif`/`mono` claimed for the request body. -/
theorem claim_C4_counterexample :
    (handleGenerate (runGen [UiEvent.setText "hi".toList])).fst
      = SubmitOutcome.submitted (buildBody (runGen [UiEvent.setText "hi".toList])) ∧
    (buildBody (runGen [UiEvent.setText "hi".toList])).font = "arial" ∧
    "arial" ∉ (["sans", "serif", "mono"] : List String) := by
  refine ⟨by decide, by decide, by decide⟩

/-- C4 (amended): the font field of every submitted request body is one
    of the enumerated option values `arial`, `serif`, `mono` of the select
    element. -/
theorem claim_C4_font_enumerated (events : List UiEvent) :
    (buildBody (runGen events)).font ∈ fontOptionValues :=
  font_inv_foldl events initialGenState (by decide)

/-- Helper: every event handler keeps the WPM cell inside the current
    slider range `[100, 5000]`. -/
theorem wpm_inv_step (st : GenState) (ev : UiEvent)
    (h : 100 ≤ st.wpm ∧ st.wpm ≤ 5000) :
    100 ≤ (genStep st ev).wpm ∧ (genStep st ev).wpm ≤ 5000 := by
  cases ev with
  | wpmSlide raw =>
    simp only [genStep, RangeInput.emit, wpmSlider]
    omega
  | _ => exact h

/-- Helper: the WPM range invariant holds along any event fold. -/
theorem wpm_inv_foldl (events : List UiEvent) (st : GenState)
    (h : 100 ≤ st.wpm ∧ st.wpm ≤ 5000) :
    100 ≤ (events.foldl genStep st).wpm ∧ (events.foldl genStep st).wpm ≤ 5000 := by
  induction events generalizing st with
  | nil => exact h
  | cons ev rest ih => exact ih (genStep st ev) (wpm_inv_step st ev h)

/-- C5: the WPM value of every reachable `Generator` state lies in
    `[100, 5000]` (initial value 300, slider clamped to 100..5000), the
    WPM posted with a job equals that state value and so is also in
    range, and the slider of the legacy variant (100..800) only emits values
    inside the same range. -/
theorem claim_C5_wpm_range (events : List UiEvent) :
    (100 ≤ (runGen events).wpm ∧ (runGen events).wpm ≤ 5000) ∧
    (100 ≤ (buildBody (runGen events)).wpm ∧ (buildBody (runGen events)).wpm ≤ 5000) ∧
    (∀ raw : ℤ, 100 ≤ wpmSliderLegacy.emit raw ∧ wpmSliderLegacy.emit raw ≤ 5000) := by
  have h := wpm_inv_foldl events initialGenState (by decide)
  refine ⟨h, h, ?_⟩
  intro raw
  simp only [RangeInput.emit, wpmSliderLegacy]
  omega

/-- C6: clicking Generate with text that is empty after trimming and no
    selected file fails validation — the error message is set and no
    request is posted — and the request is posted exactly when the
    trimmed text is non-empty or a file is selected. -/
theorem claim_C6_empty_input_validation (st : GenState) :
    ((handleGenerate st).fst = SubmitOutcome.rejectedEmpty ↔
      (trimList st.text = [] ∧ st.file = none)) ∧
    (trimList st.text = [] → st.file = none →
      (handleGenerate st).snd.error = some emptyInputMsg ∧
      ∀ body, (handleGenerate st).fst ≠ SubmitOutcome.submitted body) ∧
    ((trimList st.text ≠ [] ∨ st.file ≠ none) →
      (handleGenerate st).fst = SubmitOutcome.submitted (buildBody st)) := by
  unfold handleGenerate
  by_cases h1 : (trimList st.text).isEmpty <;>
    by_cases h2 : st.file.isNone <;>
      simp_all [List.isEmpty_iff, Option.isNone_iff_eq_none]

/-- Witness for C6: the initial state (empty text, no file) is rejected
    with the validation message, and after typing `hi` the request is
    posted. -/
theorem claim_C6_empty_input_validation_witness :
    (handleGenerate initialGenState).fst = SubmitOutcome.rejectedEmpty ∧
    (handleGenerate initialGenState).snd.error = some emptyInputMsg ∧
    (handleGenerate (runGen [UiEvent.setText "hi".toList])).fst
      = SubmitOutcome.submitted (buildBody (runGen [UiEvent.setText "hi".toList])) := by
  have h1 := claim_C6_empty_input_validation initialGenState
  have h2 := claim_C6_empty_input_validation (runGen [UiEvent.setText "hi".toList])
  exact ⟨h1.1.mpr (by decide), (h1.2.1 (by decide) (by decide)).1,
    h2.2.2 (by decide)⟩

/-- C7 counterexample: a 6 MiB file of unsupported type is over the size
    limit but is rejected with the type error, not the size error, so
    not every oversized selection draws the size error. -/
theorem claim_C7_counterexample :
    (⟨"payload.bin", "application/octet-stream", 6 * 1024 * 1024⟩ : SelectedFile).size
        > maxFileSize ∧
    (handleFileChange ⟨none, none⟩
        (some ⟨"payload.bin", "application/octet-stream", 6 * 1024 * 1024⟩)).error
      = some typeErrorMsg ∧
    typeErrorMsg ≠ sizeErrorMsg := by
  refine ⟨by decide, by decide, by decide⟩

/-- Helper: the three-way case analysis of `handleFileChange` — type
    rejection, size rejection, acceptance. -/
theorem handleFileChange_spec (st : FileState) (f : SelectedFile) :
    (supportedFile f = false →
      handleFileChange st (some f) = { st with error := some typeErrorMsg }) ∧
    (supportedFile f = true → f.size > maxFileSize →
      handleFileChange st (some f) = { st with error := some sizeErrorMsg }) ∧
    (supportedFile f = true → f.size ≤ maxFileSize →
      handleFileChange st (some f) = { file := some f, error := none }) := by
  have hb : (!validTypes.contains f.mime && !hasValidExtension f) = !(supportedFile f) := by
    unfold supportedFile
    cases validTypes.contains f.mime <;> cases hasValidExtension f <;> rfl
  have hred : handleFileChange st (some f) =
      if (!validTypes.contains f.mime && !hasValidExtension f) = true then
        { st with error := some typeErrorMsg }
      else if f.size > maxFileSize then { st with error := some sizeErrorMsg }
      else { file := some f, error := none } := rfl
  rw [hb] at hred
  refine ⟨fun h => ?_, fun h hsz => ?_, fun h hsz => ?_⟩
  · rw [hred, h]
    simp
  · rw [hred, h]
    simp only [Bool.not_true, Bool.false_eq_true, if_false]
    rw [if_pos hsz]
  · rw [hred, h]
    simp only [Bool.not_true, Bool.false_eq_true, if_false]
    rw [if_neg (by omega)]

/-- C7 (amended): an oversized selection is never accepted (the stored
    file is unchanged); an oversized file of supported type draws
    exactly the size error; a supported file of at most 5 MB is
    accepted. -/
theorem claim_C7_size_limit (st : FileState) (f : SelectedFile) :
    (f.size > maxFileSize → (handleFileChange st (some f)).file = st.file) ∧
    (supportedFile f = true → f.size > maxFileSize →
      handleFileChange st (some f) = { st with error := some sizeErrorMsg }) ∧
    (supportedFile f = true → f.size ≤ maxFileSize →
      handleFileChange st (some f) = { file := some f, error := none }) := by
  obtain ⟨hty, hsz, hok⟩ := handleFileChange_spec st f
  refine ⟨fun hbig => ?_, hsz, hok⟩
  cases hsup : supportedFile f with
  | false => rw [hty hsup]
  | true => rw [hsz hsup hbig]

/-- Witness for C7: a 5 MiB + 1 byte text file is rejected with the size
    error, and a 1 KiB text file is accepted. -/
theorem claim_C7_size_limit_witness :
    supportedFile ⟨"big.txt", "text/plain", 5 * 1024 * 1024 + 1⟩ = true ∧
    (⟨"big.txt", "text/plain", 5 * 1024 * 1024 + 1⟩ : SelectedFile).size > maxFileSize ∧
    handleFileChange ⟨none, none⟩ (some ⟨"big.txt", "text/plain", 5 * 1024 * 1024 + 1⟩)
      = ⟨none, some sizeErrorMsg⟩ ∧
    handleFileChange ⟨none, none⟩ (some ⟨"small.txt", "text/plain", 1024⟩)
      = ⟨some ⟨"small.txt", "text/plain", 1024⟩, none⟩ := by
  have hbig := claim_C7_size_limit ⟨none, none⟩ ⟨"big.txt", "text/plain", 5 * 1024 * 1024 + 1⟩
  have hsmall := claim_C7_size_limit ⟨none, none⟩ ⟨"small.txt", "text/plain", 1024⟩
  exact ⟨by decide, by decide, hbig.2.1 (by decide) (by decide),
    hsmall.2.2 (by decide) (by decide)⟩

/-- C10: a rejected selection (unsupported type, or size over 5 MB) only
    sets the error message — the previously stored file is untouched —
    an accepted selection clears the error, and a change event without a
    file leaves the state unchanged. -/
theorem claim_C10_rejection_state (st : FileState) (f : SelectedFile) :
    ((supportedFile f = false ∨ f.size > maxFileSize) →
      (handleFileChange st (some f)).file = st.file ∧
      ((handleFileChange st (some f)).error = some typeErrorMsg ∨
       (handleFileChange st (some f)).error = some sizeErrorMsg)) ∧
    (supportedFile f = true → f.size ≤ maxFileSize →
      (handleFileChange st (some f)).error = none ∧
      (handleFileChange st (some f)).file = some f) ∧
    handleFileChange st none = st := by
  obtain ⟨hty, hsz, hok⟩ := handleFileChange_spec st f
  refine ⟨fun hrej => ?_, fun hsup hsmall => by rw [hok hsup hsmall]; exact ⟨rfl, rfl⟩, rfl⟩
  rcases hrej with hun | hbig
  · rw [hty hun]
    exact ⟨rfl, Or.inl rfl⟩
  · cases hsup : supportedFile f with
    | false => rw [hty hsup]; exact ⟨rfl, Or.inl rfl⟩
    | true => rw [hsz hsup hbig]; exact ⟨rfl, Or.inr rfl⟩

/-- Witness for C10: an unsupported 1 KiB file only sets the type error
    over a state that already holds a stored file, and an accepted file
    clears a pre-existing error. -/
theorem claim_C10_rejection_state_witness :
    (handleFileChange ⟨some ⟨"old.txt", "text/plain", 10⟩, none⟩
        (some ⟨"prog.exe", "application/x-msdownload", 1024⟩)).file
      = some ⟨"old.txt", "text/plain", 10⟩ ∧
    (handleFileChange ⟨some ⟨"old.txt", "text/plain", 10⟩, none⟩
        (some ⟨"prog.exe", "application/x-msdownload", 1024⟩)).error
      = some typeErrorMsg ∧
    (handleFileChange ⟨none, some typeErrorMsg⟩ (some ⟨"ok.md", "text/markdown", 64⟩)).error
      = none := by
  have hrej := claim_C10_rejection_state ⟨some ⟨"old.txt", "text/plain", 10⟩, none⟩
    ⟨"prog.exe", "application/x-msdownload", 1024⟩
  have hacc := claim_C10_rejection_state ⟨none, some typeErrorMsg⟩
    ⟨"ok.md", "text/markdown", 64⟩
  have h1 := hrej.1 (Or.inl (by decide))
  refine ⟨h1.1, ?_, (hacc.2.1 (by decide) (by decide)).1⟩
  rcases h1.2 with h | h
  · exact h
  · exact absurd h (by decide)

/-- C3 counterexample: `cancelled` is a terminal job state, yet a status
    poll that returns it leaves the live interval installed — the
    handler clears the interval only on `completed` and `failed`, so the
    client does not stop polling on every terminal state. -/
theorem claim_C3_counterexample :
    specTerminal JobState.cancelled = true ∧
    (pollStep (startPollState "job-1")
        ⟨"job-1", JobState.cancelled, 0, none, none, none⟩).intervalActive = true := by
  refine ⟨rfl, by decide⟩

/-- C3 (amended): the poll runs every 1000 ms; a response with status
    `completed` or `failed` clears the interval (so no further status
    fetch happens); any other response — `pending`, `processing`, and
    also the terminal `cancelled` — only stores the snapshot and leaves
    the rest of the state, the live interval included, unchanged. -/
theorem claim_C3_poll_clear (st : PollState) (resp : StatusResponse) :
    pollIntervalMs = 1000 ∧
    ((resp.status = JobState.completed ∨ resp.status = JobState.failed) →
      (pollStep st resp).intervalActive = false) ∧
    (resp.status ≠ JobState.completed → resp.status ≠ JobState.failed →
      pollStep st resp = { st with jobStatus := some resp }) := by
  refine ⟨rfl, fun h => ?_, fun hc hf => ?_⟩
  · unfold pollStep
    rcases h with h | h <;> rw [h] <;> simp
  · unfold pollStep
    rw [if_neg (by simp [hc]), if_neg (by simp [hf])]

/-- Witness for C3: polling a just-started job with a `completed`
    response clears the interval, while a `cancelled` response leaves
    the started state intact apart from the stored snapshot. -/
theorem claim_C3_poll_clear_witness :
    pollIntervalMs = 1000 ∧
    (pollStep (startPollState "j") ⟨"j", JobState.completed, 100, none, some 5, none⟩).intervalActive
      = false ∧
    pollStep (startPollState "j") ⟨"j", JobState.cancelled, 0, none, none, none⟩
      = { startPollState "j" with
            jobStatus := some ⟨"j", JobState.cancelled, 0, none, none, none⟩ } := by
  have h1 := claim_C3_poll_clear (startPollState "j")
    ⟨"j", JobState.completed, 100, none, some 5, none⟩
  have h2 := claim_C3_poll_clear (startPollState "j")
    ⟨"j", JobState.cancelled, 0, none, none, none⟩
  exact ⟨h1.1, h1.2.1 (Or.inl rfl), h2.2.2 (by decide) (by decide)⟩

/-- Helper: counting from inside a run equals skipping the rest of that
    run and counting from outside. -/
theorem runCountAux_true_eq (cs : List Char) :
    runCountAux true cs = runCountAux false (cs.dropWhile (fun x => !isWs x)) := by
  induction cs with
  | nil => rfl
  | cons c cs ih =>
    by_cases h : isWs c
    · simp [runCountAux, List.dropWhile, h]
    · simp [runCountAux, List.dropWhile, h, ih]

/-- Helper: a trailing whitespace character does not change the run
    count, from either scan state. -/
theorem runCountAux_append_ws (l : List Char) (x : Char) (hx : isWs x = true) :
    ∀ b, runCountAux b (l ++ [x]) = runCountAux b l := by
  induction l with
  | nil =>
    intro b
    simp [runCountAux, hx]
  | cons c cs ih =>
    intro b
    by_cases h : isWs c <;> simp [runCountAux, h, ih]

/-- Helper: removing trailing whitespace preserves the run count. -/
theorem runCount_rdropWhile (l : List Char) :
    runCount (l.rdropWhile isWs) = runCount l := by
  induction l using List.reverseRecOn with
  | nil => rfl
  | append_singleton l x ih =>
    by_cases hx : isWs x
    · rw [List.rdropWhile_concat_pos _ _ _ hx, ih]
      exact (runCountAux_append_ws l x hx false).symm
    · rw [List.rdropWhile_concat_neg _ _ _ hx]

/-- Helper: removing leading whitespace preserves the run count. -/
theorem runCount_dropWhile (l : List Char) :
    runCount (l.dropWhile isWs) = runCount l := by
  induction l with
  | nil => rfl
  | cons c cs ih =>
    by_cases h : isWs c
    · simpa [List.dropWhile, h, runCount, runCountAux] using ih
    · simp [List.dropWhile, h]

/-- Helper: `trimList` is drop-leading-whitespace followed by
    drop-trailing-whitespace. -/
theorem trimList_eq (l : List Char) :
    trimList l = (l.dropWhile isWs).rdropWhile isWs := rfl

/-- Helper: trimming preserves the run count. -/
theorem runCount_trimList (l : List Char) :
    runCount (trimList l) = runCount l := by
  rw [trimList_eq, runCount_rdropWhile, runCount_dropWhile]

/-- Helper: the number of fields produced by the whitespace split equals
    the run count. -/
theorem wsRuns_length (l : List Char) : (wsRuns l).length = runCount l := by
  induction l using wsRuns.induct with
  | case1 => simp [wsRuns, runCount, runCountAux]
  | case2 c cs h ih =>
    rw [wsRuns, if_pos h]
    simpa [runCount, runCountAux, h] using ih
  | case3 c cs h ih =>
    rw [wsRuns, if_neg h]
    have hb : runCountAux true cs = runCount (cs.dropWhile (fun x => !isWs x)) :=
      runCountAux_true_eq cs
    simp only [List.length_cons, runCount, runCountAux, h, if_false, Bool.false_eq_true]
    rw [ih, ← hb]
    omega

/-- C8: the displayed word count equals the number of maximal
    non-whitespace runs of the text, and is 0 when the text trims to
    empty. -/
theorem claim_C8_word_count (text : List Char) :
    wordCount text = runCount text ∧ (trimList text = [] → wordCount text = 0) := by
  have key : runCount (trimList text) = runCount text := runCount_trimList text
  constructor
  · unfold wordCount
    by_cases h : (trimList text).isEmpty
    · rw [if_pos h]
      have he : trimList text = [] := by simpa using h
      rw [← key, he]
      rfl
    · rw [if_neg h, wsRuns_length, key]
  · intro h
    unfold wordCount
    rw [if_pos (by simp [h])]

/-- Witness for C8 on concrete texts. -/
theorem claim_C8_word_count_witness :
    wordCount " a  bb c ".toList = runCount " a  bb c ".toList ∧
    trimList " \t ".toList = [] ∧
    wordCount " \t ".toList = 0 := by
  have h1 := claim_C8_word_count " a  bb c ".toList
  have h2 := claim_C8_word_count " \t ".toList
  exact ⟨h1.1, by decide, h2.2 (by decide)⟩

end RSVP
